import Mathlib

/-!
Shallow embedding of the multi-file edit engine of `vibe`
(`src/vibe/core/tools/builtins/multi_edit.py`): the tiered matching engine,
safety checker, diff generator, edit transaction with rollback, and the
multi-edit orchestrator, together with theorems settling the specification
claims about them.

Modelling conventions:
* Python `str` content is modelled as `List Char` (`Content`); result/message
  strings are Lean `String`s.
* The filesystem is a map from path strings to file contents
  (`FS := String → Option Content`); a path "exists" iff it maps to `some`.
  Directory markers (e.g. `.git/rebase-merge`) are modelled as entries.
* External libraries used by the source (`rapidfuzz.fuzz.ratio`, `re.search`,
  `hashlib.md5`, `difflib.unified_diff`) are abstracted as oracle functions
  in an `Env` record; every theorem quantifies over the oracles.
* Python floats (confidences, scores) are modelled as `Rat`.
* Numeric interpolation inside human-readable messages (e.g. percentage
  formatting of scores) is elided where noted; no claim inspects it.
-/

set_option maxHeartbeats 1000000
set_option maxRecDepth 100000

abbrev Content := List Char

/-- Python `content.find(pattern)`: index of the first occurrence of
`pattern` as a contiguous substring of `content` (`none` models `-1`). -/
def strFind (c p : Content) : Option Nat :=
  (List.range (c.length - p.length + 1)).find? (fun i => p.isPrefixOf (c.drop i))

/-- Python `content.find(pattern, start)`: first occurrence at index ≥ `start`. -/
def strFindFrom (c p : Content) (start : Nat) : Option Nat :=
  if start ≤ c.length then (strFind (c.drop start) p).map (· + start) else none

/-- Python slice `l[a:b]` for non-negative bounds. -/
def pySliceNat (l : Content) (a b : Nat) : Content :=
  (l.take b).drop a

/-- Clamp a (possibly negative) Python slice index into `[0, len]`. -/
def pySliceIdx (len : Nat) (i : Int) : Nat :=
  if i < 0 then ((len : Int) + i).toNat else min i.toNat len

/-- Python slice `l[a:b]` with possibly negative `Int` bounds. -/
def pySliceInt (l : List α) (a b : Int) : List α :=
  (l.take (pySliceIdx l.length b)).drop (pySliceIdx l.length a)

/-- Python `str.strip()`: remove leading and trailing whitespace. -/
def pyStrip (s : Content) : Content :=
  ((s.dropWhile Char.isWhitespace).reverse.dropWhile Char.isWhitespace).reverse

/-- `splitlines(keepends=True)`, for the line boundaries `\n`, `\r\n`, `\r`
(the exotic Unicode boundaries Python also splits on are not modelled;
no claim depends on them). -/
def splitlinesKeepends (s : Content) : List Content :=
  go [] s
where
  go (acc : Content) : Content → List Content
    | [] => if acc.isEmpty then [] else [acc.reverse]
    | '\r' :: '\n' :: rest => (acc.reverse ++ ['\r', '\n']) :: go [] rest
    | '\n' :: rest => (acc.reverse ++ ['\n']) :: go [] rest
    | '\r' :: rest => (acc.reverse ++ ['\r']) :: go [] rest
    | ch :: rest => go (ch :: acc) rest

/-- Drop one trailing line terminator from a kept line. -/
def dropEOL (s : Content) : Content :=
  if ['\r', '\n'].isSuffixOf s then s.take (s.length - 2)
  else if ['\n'].isSuffixOf s then s.take (s.length - 1)
  else if ['\r'].isSuffixOf s then s.take (s.length - 1)
  else s

/-- Python `str.splitlines()` (without keepends). -/
def pySplitlines (s : Content) : List Content :=
  (splitlinesKeepends s).map dropEOL

/-- Python truthiness of an optional string (`None` and `""` are falsy). -/
def truthy : Option Content → Bool
  | some c => !c.isEmpty
  | none => false

/-- Python truthiness of an optional Lean `String`. -/
def truthyStr : Option String → Bool
  | some s => !s.isEmpty
  | none => false

/-- Python `x or d` for optional integers (`None` and `0` are falsy). -/
def pyOrInt (x : Option Int) (d : Int) : Int :=
  match x with
  | none => d
  | some v => if v = 0 then d else v

/-- Substring test on Lean `String`s (via `strFind` on the char lists). -/
def containsSub (s sub : String) : Bool :=
  (strFind s.toList sub.toList).isSome

/-- `pathlib`-style path join. -/
def joinPath (a b : String) : String := a ++ "/" ++ b

/-! ## Data model (`EditBlock`, `FileEdit`, match results) -/

inductive MatchTier where
  | exact
  | normalized
  | anchored
  | line_range
  | fuzzy
  | failed
deriving DecidableEq, Repr

/-- The `.value` string of a `MatchTier` member. -/
def MatchTier.value : MatchTier → String
  | .exact => "exact"
  | .normalized => "normalized"
  | .anchored => "anchored"
  | .line_range => "line_range"
  | .fuzzy => "fuzzy"
  | .failed => "failed"

structure EditBlock where
  search : Content
  replace : Content
  context_before : Option Content := none
  context_after : Option Content := none
  line_start : Option Int := none
  line_end : Option Int := none
deriving DecidableEq, Repr

structure FileEdit where
  path : String
  edits : List EditBlock
  expected_hash : Option String := none
deriving DecidableEq, Repr

structure MatchResult where
  success : Bool
  tier : MatchTier
  confidence : Rat
  match_start : Option Nat := none
  match_end : Option Nat := none
  warning : Option String := none
  suggestion : Option Content := none
deriving DecidableEq, Repr

structure EditBlockResult where
  edit_index : Nat
  success : Bool
  match_result : MatchResult
  original_text : Option Content := none
  applied_text : Option Content := none
deriving DecidableEq, Repr

structure FileEditResult where
  path : String
  success : Bool
  edits_applied : Nat := 0
  edits_failed : Nat := 0
  block_results : List EditBlockResult := []
  diff_preview : String := ""
  errors : List String := []
  warnings : List String := []
  reject_content : Option String := none
deriving DecidableEq, Repr

structure MultiEditArgs where
  files : List FileEdit
  dry_run : Bool := true
  check_only : Bool := false
  create_backup : Bool := true
  fail_fast : Bool := true
  min_confidence : Rat := mkRat 85 100
deriving Repr

structure MultiEditResult where
  success : Bool
  state : String
  files_checked : Nat := 0
  files_modified : Nat := 0
  total_edits : Nat := 0
  edits_applied : Nat := 0
  edits_failed : Nat := 0
  results : List FileEditResult := []
  backup_paths : Option (List (String × String)) := none
  reject_files : Option (List (String × String)) := none
  can_apply : Bool := false
  summary : String := ""
deriving DecidableEq, Repr

/-- The anchored-tier regex pattern: the escaped parts that the source joins
with permissive whitespace. The actual `re` escaping/joining/searching is
abstracted behind the `Env.regexSearch` oracle, which receives these parts. -/
structure AnchorPattern where
  parts : List Content
deriving DecidableEq, Repr

/-- Oracles for the external libraries the source calls
(`rapidfuzz`, `re`, `hashlib`, `difflib`, plus availability of rapidfuzz). -/
structure Env where
  hasRapidfuzz : Bool
  fuzzRatio : Content → Content → Rat
  regexSearch : AnchorPattern → Content → Option (Nat × Nat)
  md5hex : Content → String
  unifiedDiff : Content → Content → String → String

/-- A trivial oracle environment used to instantiate closed examples. -/
def defEnv : Env where
  hasRapidfuzz := false
  fuzzRatio := fun _ _ => 0
  regexSearch := fun _ _ => none
  md5hex := fun _ => ""
  unifiedDiff := fun _ _ _ => ""

/-! ## Matching engine -/

structure MatchContext where
  content : Content
  lines : List Content
  min_confidence : Rat

def MatchingEngine.tier1_exact (ctx : MatchContext) (edit : EditBlock) : MatchResult :=
  match strFind ctx.content edit.search with
  | some idx =>
    { success := true, tier := .exact, confidence := 1,
      match_start := some idx, match_end := some (idx + edit.search.length) }
  | none => { success := false, tier := .exact, confidence := 0 }

/-- Does the contiguous run of lines starting at `i` strip-match `stripped`? -/
def MatchingEngine.runMatches (lines : List Content) (stripped : List Content) (i : Nat) : Bool :=
  (List.range stripped.length).all fun j =>
    decide (i + j < lines.length) && (pyStrip ((lines.drop (i + j)).headD []) == stripped.getD j [])

def MatchingEngine.tier2_normalized (ctx : MatchContext) (edit : EditBlock) : MatchResult :=
  let search_lines := pySplitlines edit.search
  let search_stripped := search_lines.map pyStrip
  match search_stripped with
  | [] =>
    -- In Python `search_stripped[0]` would raise here; unreachable from
    -- `MatchingEngine.match_`, since tier 1 always succeeds on an empty search.
    { success := false, tier := .normalized, confidence := 0 }
  | s0 :: _ =>
    match (List.range ctx.lines.length).find? (fun i =>
        (pyStrip ((ctx.lines.drop i).headD []) == s0) &&
        MatchingEngine.runMatches ctx.lines search_stripped i) with
    | some i =>
      { success := true, tier := .normalized, confidence := mkRat 95 100,
        match_start := some (((ctx.lines.take i).map List.length).sum),
        match_end := some (((ctx.lines.take (i + search_lines.length)).map List.length).sum),
        warning := some "Matched via whitespace normalization" }
    | none => { success := false, tier := .normalized, confidence := 0 }

def MatchingEngine.tier3_anchored (env : Env) (ctx : MatchContext) (edit : EditBlock) : MatchResult :=
  let pattern_parts : List Content :=
    (if truthy edit.context_before then [pyStrip (edit.context_before.getD [])] else [])
      ++ [edit.search]
      ++ (if truthy edit.context_after then [pyStrip (edit.context_after.getD [])] else [])
  match env.regexSearch ⟨pattern_parts⟩ ctx.content with
  | some (ms, me) =>
    match strFindFrom ctx.content edit.search ms with
    | some search_start =>
      if search_start ≤ me then
        { success := true, tier := .anchored, confidence := mkRat 90 100,
          match_start := some search_start,
          match_end := some (search_start + edit.search.length),
          warning := some "Matched via context anchoring" }
      else { success := false, tier := .anchored, confidence := 0 }
    | none => { success := false, tier := .anchored, confidence := 0 }
  | none => { success := false, tier := .anchored, confidence := 0 }

def MatchingEngine.tier4_line_range (ctx : MatchContext) (edit : EditBlock) : MatchResult :=
  let start_line : Int := pyOrInt edit.line_start 1 - 1
  let end_line : Int := pyOrInt edit.line_end (ctx.lines.length : Int)
  if start_line < 0 || end_line > (ctx.lines.length : Int) then
    { success := false, tier := .line_range, confidence := 0,
      warning := some "Line range out of bounds" }  -- range numbers elided
  else
    let range_lines := pySliceInt ctx.lines start_line end_line
    let range_content := range_lines.flatten
    match strFind range_content edit.search with
    | some idx =>
      let offset := (((ctx.lines.take start_line.toNat).map List.length).sum)
      { success := true, tier := .line_range, confidence := mkRat 85 100,
        match_start := some (offset + idx),
        match_end := some (offset + idx + edit.search.length),
        warning := some "Matched in line range" }  -- range numbers elided
    | none => { success := false, tier := .line_range, confidence := 0 }

/-- The best (score, window, position) triple of the fuzzy scan; `none`
position models Python's `-1` sentinel. -/
def MatchingEngine.fuzzyBest (env : Env) (ctx : MatchContext) (edit : EditBlock) :
    Rat × Content × Option Nat :=
  let search_len := edit.search.length
  (List.range (ctx.content.length - min search_len 10)).foldl
    (fun b i =>
      let window := pySliceNat ctx.content i (i + search_len + 50)
      let score := env.fuzzRatio edit.search (window.take search_len) / 100
      if score > b.1 then (score, window.take search_len, some i) else b)
    (0, [], none)

def MatchingEngine.tier5_fuzzy (env : Env) (ctx : MatchContext) (edit : EditBlock) : MatchResult :=
  if !env.hasRapidfuzz then
    { success := false, tier := .fuzzy, confidence := 0,
      warning := some "Fuzzy matching unavailable (rapidfuzz not installed)" }
  else
    let best := MatchingEngine.fuzzyBest env ctx edit
    if best.1 ≥ mkRat 70 100 then
      { success := false  -- Never auto-apply fuzzy
        , tier := .fuzzy, confidence := best.1,
        match_start := best.2.2,
        match_end := best.2.2.map (· + best.2.1.length),
        warning := some "Fuzzy match found - manual review required",  -- score elided
        suggestion := some best.2.1 }
    else
      { success := false, tier := .failed, confidence := 0,
        warning := some "No match found" }

/-- `MatchingEngine.match` (named `match_` since `match` is reserved in Lean):
the ordered five-tier fallback, returning at the first successful tier. -/
def MatchingEngine.match_ (env : Env) (content : Content) (edit : EditBlock)
    (min_confidence : Rat := mkRat 85 100) : MatchResult :=
  let ctx : MatchContext :=
    { content := content, lines := splitlinesKeepends content,
      min_confidence := min_confidence }
  let r1 := MatchingEngine.tier1_exact ctx edit
  if r1.success then r1
  else
    let r2 := MatchingEngine.tier2_normalized ctx edit
    if r2.success then r2
    else
      let r3opt : Option MatchResult :=
        if truthy edit.context_before || truthy edit.context_after then
          let r3 := MatchingEngine.tier3_anchored env ctx edit
          if r3.success then some r3 else none
        else none
      match r3opt with
      | some r => r
      | none =>
        let r4opt : Option MatchResult :=
          match edit.line_start with
          | some _ =>
            let r4 := MatchingEngine.tier4_line_range ctx edit
            if r4.success then some r4 else none
          | none => none
        match r4opt with
        | some r => r
        | none => MatchingEngine.tier5_fuzzy env ctx edit

/-! ## Filesystem model and dictionaries -/

/-- The filesystem: a map from path strings to file contents. -/
abbrev FS := String → Option Content

def fsWrite (fs : FS) (p : String) (c : Content) : FS :=
  fun q => if q = p then some c else fs q

def pathExists (fs : FS) (p : String) : Bool :=
  (fs p).isSome

/-- `path.stat().st_size`, modelled as the character count of the content. -/
def fileSize (fs : FS) (p : String) : Nat :=
  match fs p with
  | some c => c.length
  | none => 0

/-- Lookup in an insertion-ordered dictionary (Python `dict`). -/
def dictLookup : List (String × α) → String → Option α
  | [], _ => none
  | (k', v) :: t, k => if k = k' then some v else dictLookup t k

/-- Insertion into an insertion-ordered dictionary: replace in place when the
key is present, append otherwise (Python `d[k] = v`). -/
def dictInsert : List (String × α) → String → α → List (String × α)
  | [], k, v => [(k, v)]
  | (k', v') :: t, k, v => if k = k' then (k, v) :: t else (k', v') :: dictInsert t k v

/-! ## Safety checker -/

def SafetyChecker.mergeMsg : String := "Git merge in progress. Resolve before editing."

def SafetyChecker.rebaseMsg : String := "Git rebase in progress. Complete or abort first."

def SafetyChecker.lockMsg : String := "Git index is locked. Another git process may be running."

/-- `SafetyChecker.check_all(workdir)`: all three repository checks, evaluated
unconditionally; returns `(len(errors) == 0, errors)`. -/
def SafetyChecker.check_all (fs : FS) (workdir : String) : Bool × List String :=
  let errors : List String := []
  let errors := if pathExists fs (joinPath workdir ".git/MERGE_HEAD")
    then errors ++ [SafetyChecker.mergeMsg] else errors
  let errors := if pathExists fs (joinPath workdir ".git/rebase-merge")
      || pathExists fs (joinPath workdir ".git/rebase-apply")
    then errors ++ [SafetyChecker.rebaseMsg] else errors
  let errors := if pathExists fs (joinPath workdir ".git/index.lock")
    then errors ++ [SafetyChecker.lockMsg] else errors
  (errors.isEmpty, errors)

/-! ## Diff generator (difflib abstracted as an oracle) -/

def DiffGenerator.generate (env : Env) (original modified : Content) (path : String) : String :=
  env.unifiedDiff original modified path

/-! ## Edit transaction -/

structure EditTransaction where
  workdir : String
  original_contents : List (String × Content) := []
  backup_paths : List (String × String) := []
  modified_contents : List (String × Content) := []

/-- `EditTransaction.read_file`: read the on-disk content and store it into
`original_contents` (note: the source performs no cache check — a repeated
call re-reads and overwrites). `none` models the `open` raising. -/
def EditTransaction.read_file (fs : FS) (t : EditTransaction) (path : String) :
    Option (Content × EditTransaction) :=
  match fs path with
  | none => none
  | some content =>
    some (content, { t with original_contents := dictInsert t.original_contents path content })

/-- `compute_hash`: md5 hex digest (oracle). -/
def EditTransaction.compute_hash (env : Env) (content : Content) : String :=
  env.md5hex content

/-- `create_backup`: copy the current on-disk content to `path + ".bak"`.
(`Path.with_suffix(path.suffix + '.bak')` always appends `.bak`.)
`none` models the reads raising (unreachable in-model after an exists check). -/
def EditTransaction.create_backup (fs : FS) (t : EditTransaction) (path : String) :
    Option (String × EditTransaction × FS) :=
  let backup_path := path ++ ".bak"
  match fs path with
  | none => none
  | some content =>
    some (backup_path,
      { t with backup_paths := dictInsert t.backup_paths path backup_path },
      fsWrite fs backup_path content)

/-- `apply`: write content to disk and record it as the modified content. -/
def EditTransaction.apply (fs : FS) (t : EditTransaction) (path : String) (content : Content) :
    EditTransaction × FS :=
  ({ t with modified_contents := dictInsert t.modified_contents path content },
    fsWrite fs path content)

/-- `rollback`: restore the recorded original content if the path was read. -/
def EditTransaction.rollback (fs : FS) (t : EditTransaction) (path : String) : Bool × FS :=
  match dictLookup t.original_contents path with
  | some orig => (true, fsWrite fs path orig)
  | none => (false, fs)

/-- `rollback_all`: roll back every path recorded in `modified_contents`. -/
def EditTransaction.rollback_all (fs : FS) (t : EditTransaction) : Nat × FS :=
  t.modified_contents.foldl
    (fun acc pc =>
      let r := EditTransaction.rollback acc.2 t pc.1
      (acc.1 + (if r.1 then 1 else 0), r.2))
    (0, fs)

/-! ## Multi-edit orchestrator -/

structure MultiEditConfig where
  workdir : String
  max_file_size : Nat := 1000000

/-- `Path.is_absolute()`: the path starts with a separator. -/
def isAbsolutePath (p : String) : Bool :=
  match p.toList with
  | '/' :: _ => true
  | _ => false

/-- Python `Path` resolution against the workdir (`Path.resolve()` symlink /
`..` normalization is not modelled). -/
def resolvePath (workdir p : String) : String :=
  if isAbsolutePath p then p else joinPath workdir p

/-- `_format_reject`: reject-file block for one failed edit (the confidence
percentage interpolation is elided). -/
def MultiEdit.format_reject (edit : EditBlock) (mr : MatchResult) : String :=
  let lines : List String :=
    ["# Rejected edit",
     "# Tier: " ++ mr.tier.value,
     "# Warning: " ++ (if truthyStr mr.warning then mr.warning.getD "" else "None"),
     "",
     "<<<<<<< SEARCH",
     String.mk edit.search,
     "=======",
     String.mk edit.replace,
     ">>>>>>> REPLACE"]
  let lines := lines ++
    (if truthy mr.suggestion then
      ["", "# Suggested match:", String.mk (mr.suggestion.getD [])]
    else [])
  String.intercalate "\n" lines

/-- The loop state of `_process_file`'s per-edit `for` loop; `next_index`
models the `enumerate` counter. -/
structure EditLoopState where
  modified_content : Content
  edits_applied : Nat := 0
  block_results : List EditBlockResult := []
  errors : List String := []
  warnings : List String := []
  reject_parts : List String := []
  next_index : Nat := 0
deriving DecidableEq, Repr

def initLoopState (content : Content) : EditLoopState :=
  { modified_content := content }

/-- One iteration of `_process_file`'s edit loop: match the block against the
current evolving content, apply it when trustworthy, otherwise record an
error and a reject entry. -/
def MultiEdit.apply_edit_block (env : Env) (minc : Rat) (st : EditLoopState)
    (edit : EditBlock) : EditLoopState :=
  let i := st.next_index
  let mr := MatchingEngine.match_ env st.modified_content edit minc
  let br : EditBlockResult := { edit_index := i, success := mr.success, match_result := mr }
  if mr.success && decide (mr.confidence ≥ minc) then
    match mr.match_start, mr.match_end with
    | some s, some e =>
      let br := { br with
        original_text := some (pySliceNat st.modified_content s e),
        applied_text := some edit.replace }
      { st with
        modified_content :=
          (st.modified_content.take s) ++ edit.replace ++ (st.modified_content.drop e),
        edits_applied := st.edits_applied + 1,
        warnings := st.warnings ++
          (if truthyStr mr.warning then
            ["Edit " ++ toString (i + 1) ++ ": " ++ mr.warning.getD ""]
          else []),
        block_results := st.block_results ++ [br],
        next_index := i + 1 }
    | _, _ =>
      -- start/end of None: the edit is silently not applied (no error entry)
      { st with block_results := st.block_results ++ [br], next_index := i + 1 }
  else
    { st with
      errors := st.errors ++
        ["Edit " ++ toString (i + 1) ++ ": " ++
          (if truthyStr mr.warning then mr.warning.getD "" else "No match found")],
      reject_parts := st.reject_parts ++ [MultiEdit.format_reject edit mr],
      block_results := st.block_results ++ [br],
      next_index := i + 1 }

/-- `_process_file`'s `for i, edit in enumerate(file_edit.edits)` loop. -/
def MultiEdit.run_edit_blocks (env : Env) (minc : Rat)
    (edits : List EditBlock) (st : EditLoopState) : EditLoopState :=
  edits.foldl (MultiEdit.apply_edit_block env minc) st

/-- `MultiEdit._process_file`: per-file validation, edit resolution, and
(conditional) backup + write. Returns the file result together with the
updated transaction and filesystem. -/
def MultiEdit.process_file (env : Env) (cfg : MultiEditConfig) (args : MultiEditArgs)
    (file_edit : FileEdit) (transaction : EditTransaction) (fs : FS) (workdir : String) :
    FileEditResult × EditTransaction × FS :=
  let path := resolvePath workdir file_edit.path
  if !pathExists fs path then
    ({ path := path, success := false, errors := ["File not found: " ++ path] },
      transaction, fs)
  else if fileSize fs path > cfg.max_file_size then
    ({ path := path, success := false, errors := ["File too large"] }, transaction, fs)
  else
    match EditTransaction.read_file fs transaction path with
    | none =>
      ({ path := path, success := false, errors := ["Failed to read file"] },
        transaction, fs)
    | some (content, transaction) =>
      if truthyStr file_edit.expected_hash &&
          (EditTransaction.compute_hash env content ≠ file_edit.expected_hash.getD "" : Bool) then
        ({ path := path, success := false,
           errors := ["File has changed since edit was planned (hash mismatch)"] },
          transaction, fs)
      else
        let st := MultiEdit.run_edit_blocks env args.min_confidence file_edit.edits
          (initLoopState content)
        let diff_preview :=
          if content ≠ st.modified_content then
            DiffGenerator.generate env content st.modified_content path
          else ""
        let (transaction, fs) :=
          if !args.dry_run && !args.check_only && decide (st.edits_applied > 0) then
            let (transaction, fs) :=
              if args.create_backup then
                match EditTransaction.create_backup fs transaction path with
                | some (_, t', fs') => (t', fs')
                | none => (transaction, fs)  -- unreachable: path was readable above
              else (transaction, fs)
            EditTransaction.apply fs transaction path st.modified_content
          else (transaction, fs)
        ({ path := path,
           success := st.errors.isEmpty,
           edits_applied := st.edits_applied,
           edits_failed := file_edit.edits.length - st.edits_applied,
           block_results := st.block_results,
           diff_preview := diff_preview,
           errors := st.errors,
           warnings := st.warnings,
           reject_content :=
             if st.reject_parts.isEmpty then none
             else some (String.intercalate "\n" st.reject_parts) },
          transaction, fs)

/-- `_generate_summary` (leading status emoji of the source elided). -/
def MultiEdit.generate_summary (results : List FileEditResult) (state : String)
    (edits_applied edits_failed : Nat) : String :=
  if state = "checked" then
    "Checked " ++ toString results.length ++ " file(s): " ++ toString edits_applied ++ " edits valid"
  else if state = "previewed" then
    "Preview: " ++ toString edits_applied ++ " edit(s) ready to apply"
  else if state = "applied" then
    "Applied " ++ toString edits_applied ++ " edit(s) to " ++ toString results.length ++ " file(s)"
  else if state = "rolled_back" then
    "Rolled back: " ++ toString edits_failed ++ " edit(s) failed"
  else
    "Failed: " ++ toString edits_failed ++ " edit(s) could not be applied"

/-- Accumulator of `run`'s per-file loop. -/
structure RunAcc where
  results : List FileEditResult := []
  edits_applied : Nat := 0
  edits_failed : Nat := 0
  reject_files : List (String × String) := []
  tr : EditTransaction
  fs : FS

/-- The per-file loop of `MultiEdit.run`, including the fail-fast rollback
early return and the final aggregate result. -/
def MultiEdit.run_files (env : Env) (args : MultiEditArgs)
    (cfg : MultiEditConfig) (workdir : String) (total_edits : Nat) :
    List FileEdit → RunAcc → MultiEditResult × FS
  | [], acc =>
    let backup_paths := acc.tr.backup_paths
    let all_success := acc.results.all (·.success)
    let state :=
      if args.check_only then "checked"
      else if args.dry_run then "previewed"
      else if all_success then "applied" else "failed"
    ({ success := all_success,
       state := state,
       files_checked := acc.results.length,
       files_modified := (acc.results.filter (fun r => r.edits_applied > 0)).length,
       total_edits := total_edits,
       edits_applied := acc.edits_applied,
       edits_failed := acc.edits_failed,
       results := acc.results,
       backup_paths := if backup_paths.isEmpty then none else some backup_paths,
       reject_files := if acc.reject_files.isEmpty then none else some acc.reject_files,
       can_apply := all_success && args.dry_run,
       summary := MultiEdit.generate_summary acc.results state acc.edits_applied acc.edits_failed },
      acc.fs)
  | file_edit :: rest, acc =>
    let pr := MultiEdit.process_file env cfg args file_edit acc.tr acc.fs workdir
    let file_result := pr.1
    let acc : RunAcc :=
      { results := acc.results ++ [file_result],
        edits_applied := acc.edits_applied + file_result.edits_applied,
        edits_failed := acc.edits_failed + file_result.edits_failed,
        reject_files :=
          match file_result.reject_content with
          | some rc => dictInsert acc.reject_files file_edit.path rc
          | none => acc.reject_files,
        tr := pr.2.1,
        fs := pr.2.2 }
    if !file_result.success && args.fail_fast then
      let rb := EditTransaction.rollback_all acc.fs acc.tr
      ({ success := false,
         state := "rolled_back",
         files_checked := acc.results.length,
         files_modified := 0,
         total_edits := total_edits,
         edits_applied := 0,
         edits_failed := acc.edits_failed,
         results := acc.results,
         reject_files := if acc.reject_files.isEmpty then none else some acc.reject_files,
         can_apply := false,
         summary := "Failed and rolled back: " ++ (file_result.errors.headD "Unknown error") },
        rb.2)
    else MultiEdit.run_files env args cfg workdir total_edits rest acc

/-- `MultiEdit.run`: safety gate, then the per-file loop. (The transaction id
uuid and the source's `except` clause — unreachable in this total model — are
elided.) -/
def MultiEdit.run (env : Env) (cfg : MultiEditConfig) (args : MultiEditArgs) (fs : FS) :
    MultiEditResult × FS :=
  let workdir := cfg.workdir
  let check := SafetyChecker.check_all fs workdir
  if !check.1 then
    ({ success := false, state := "failed",
       summary := "Safety check failed: " ++ String.intercalate "; " check.2 }, fs)
  else
    let transaction : EditTransaction := { workdir := workdir }
    let total_edits := (args.files.map (·.edits.length)).sum
    MultiEdit.run_files env args cfg workdir total_edits args.files
      { tr := transaction, fs := fs }

/-! ## Basic lemmas: substring search, dictionaries, filesystem writes -/

theorem strFind_some_prefixOf {c p : Content} {i : Nat} (h : strFind c p = some i) :
    p.isPrefixOf (c.drop i) = true := by
  rw [strFind] at h
  simpa using List.find?_some h

theorem strFind_isSome_of_prefixOf {c p : Content} {i : Nat}
    (h : p.isPrefixOf (c.drop i) = true) : (strFind c p).isSome := by
  rw [strFind, List.find?_isSome]
  have hp := List.isPrefixOf_iff_prefix.1 h
  have hl := hp.length_le
  rw [List.length_drop] at hl
  by_cases hi : i ≤ c.length
  · exact ⟨i, List.mem_range.2 (by omega), h⟩
  · have hnil : c.drop i = [] := List.drop_eq_nil_of_le (by omega)
    rw [hnil] at hp
    have hp0 : p = [] := List.prefix_nil.1 hp
    refine ⟨0, List.mem_range.2 (by omega), ?_⟩
    subst hp0
    exact List.isPrefixOf_iff_prefix.2 (List.nil_prefix)

theorem strFind_none_not_prefixOf {c p : Content} (h : strFind c p = none) (i : Nat) :
    ¬ p.isPrefixOf (c.drop i) = true := by
  intro hp
  have := strFind_isSome_of_prefixOf hp
  rw [h] at this
  simp at this

theorem strFindFrom_eq_none {c p : Content} (h : strFind c p = none) (s : Nat) :
    strFindFrom c p s = none := by
  rw [strFindFrom]
  split
  · cases hf : strFind (c.drop s) p with
    | none => simp
    | some j =>
      exfalso
      have hp := strFind_some_prefixOf hf
      rw [List.drop_drop] at hp
      exact strFind_none_not_prefixOf h _ hp
  · rfl

theorem strFind_nil (c : Content) : strFind c [] = some 0 := by
  rw [strFind]
  simp only [List.length_nil, Nat.sub_zero, List.range_succ_eq_map]
  rw [List.find?_cons_of_pos]
  exact List.isPrefixOf_iff_prefix.2 (List.nil_prefix)

theorem pySliceNat_of_prefixOf {c p : Content} {i : Nat}
    (h : p.isPrefixOf (c.drop i) = true) :
    pySliceNat c i (i + p.length) = p := by
  rw [pySliceNat]
  have hdt : (c.take (i + p.length)).drop i = (c.drop i).take p.length := by
    rw [List.drop_take]; congr 1; omega
  rw [hdt]
  exact ((List.prefix_iff_eq_take.1 (List.isPrefixOf_iff_prefix.1 h))).symm

theorem dictLookup_insert_self (d : List (String × α)) (k : String) (v : α) :
    dictLookup (dictInsert d k v) k = some v := by
  induction d with
  | nil => simp [dictInsert, dictLookup]
  | cons kv t ih =>
    obtain ⟨k', v'⟩ := kv
    rw [dictInsert]
    by_cases h : k = k'
    · rw [if_pos h, dictLookup, if_pos rfl]
    · rw [if_neg h, dictLookup, if_neg h]
      exact ih

theorem dictLookup_insert_ne (d : List (String × α)) (k q : String) (v : α)
    (h : q ≠ k) : dictLookup (dictInsert d k v) q = dictLookup d q := by
  induction d with
  | nil => simp [dictInsert, dictLookup, h]
  | cons kv t ih =>
    obtain ⟨k', v'⟩ := kv
    rw [dictInsert]
    by_cases hk : k = k'
    · subst hk
      rw [if_pos rfl, dictLookup, if_neg h, dictLookup, if_neg h]
    · rw [if_neg hk, dictLookup, dictLookup]
      by_cases hq : q = k'
      · rw [if_pos hq, if_pos hq]
      · rw [if_neg hq, if_neg hq]
        exact ih

theorem fsWrite_self (fs : FS) (p : String) (c : Content) : fsWrite fs p c p = some c := by
  simp [fsWrite]

theorem fsWrite_ne (fs : FS) (p q : String) (c : Content) (h : q ≠ p) :
    fsWrite fs p c q = fs q := by
  simp [fsWrite, h]

/-! ## Matching-engine tier facts -/

theorem tier1_tier (ctx : MatchContext) (e : EditBlock) :
    (MatchingEngine.tier1_exact ctx e).tier = .exact := by
  rw [MatchingEngine.tier1_exact]
  split <;> rfl

theorem tier1_not_success (ctx : MatchContext) (e : EditBlock)
    (h : (MatchingEngine.tier1_exact ctx e).success = false) :
    strFind ctx.content e.search = none := by
  rw [MatchingEngine.tier1_exact] at h
  cases hf : strFind ctx.content e.search with
  | none => rfl
  | some i => rw [hf] at h; simp at h

theorem tier2_tier (ctx : MatchContext) (e : EditBlock) :
    (MatchingEngine.tier2_normalized ctx e).tier = .normalized := by
  rw [MatchingEngine.tier2_normalized]
  split
  · rfl
  · split <;> rfl

theorem tier3_not_success_of_no_occurrence (env : Env) (ctx : MatchContext) (e : EditBlock)
    (h : strFind ctx.content e.search = none) :
    (MatchingEngine.tier3_anchored env ctx e).success = false := by
  rw [MatchingEngine.tier3_anchored]
  cases hr : env.regexSearch _ ctx.content with
  | none => rfl
  | some se =>
    obtain ⟨ms, me⟩ := se
    have := strFindFrom_eq_none h ms
    simp only [this]

theorem tier4_tier (ctx : MatchContext) (e : EditBlock) :
    (MatchingEngine.tier4_line_range ctx e).tier = .line_range := by
  rw [MatchingEngine.tier4_line_range]
  split
  · rfl
  · dsimp only
    split <;> rfl

theorem tier5_not_success (env : Env) (ctx : MatchContext) (e : EditBlock) :
    (MatchingEngine.tier5_fuzzy env ctx e).success = false := by
  rw [MatchingEngine.tier5_fuzzy]
  split
  · rfl
  · dsimp only
    split <;> rfl

theorem tier5_tier (env : Env) (ctx : MatchContext) (e : EditBlock) :
    (MatchingEngine.tier5_fuzzy env ctx e).tier = .fuzzy ∨
      (MatchingEngine.tier5_fuzzy env ctx e).tier = .failed := by
  rw [MatchingEngine.tier5_fuzzy]
  split
  · left; rfl
  · dsimp only
    split
    · left; rfl
    · right; rfl

theorem tier3_tier (env : Env) (ctx : MatchContext) (e : EditBlock) :
    (MatchingEngine.tier3_anchored env ctx e).tier = .anchored := by
  rw [MatchingEngine.tier3_anchored]
  split
  · split
    · split <;> rfl
    · rfl
  · rfl

/-- The `MatchContext` that `MatchingEngine.match_` builds. -/
def mkCtx (content : Content) (minc : Rat) : MatchContext :=
  { content := content, lines := splitlinesKeepends content, min_confidence := minc }

/-- Exhaustive characterization of which tier's result `match_` returns. -/
theorem match_result_cases (env : Env) (content : Content) (edit : EditBlock) (minc : Rat) :
    (MatchingEngine.match_ env content edit minc =
        MatchingEngine.tier1_exact (mkCtx content minc) edit ∧
      (MatchingEngine.match_ env content edit minc).success = true) ∨
    (strFind content edit.search = none ∧
      MatchingEngine.match_ env content edit minc =
        MatchingEngine.tier2_normalized (mkCtx content minc) edit ∧
      (MatchingEngine.match_ env content edit minc).success = true) ∨
    (strFind content edit.search = none ∧
      MatchingEngine.match_ env content edit minc =
        MatchingEngine.tier3_anchored env (mkCtx content minc) edit ∧
      (MatchingEngine.match_ env content edit minc).success = true) ∨
    (strFind content edit.search = none ∧
      MatchingEngine.match_ env content edit minc =
        MatchingEngine.tier4_line_range (mkCtx content minc) edit ∧
      (MatchingEngine.match_ env content edit minc).success = true) ∨
    (strFind content edit.search = none ∧
      MatchingEngine.match_ env content edit minc =
        MatchingEngine.tier5_fuzzy env (mkCtx content minc) edit) := by
  rw [MatchingEngine.match_, mkCtx]
  dsimp only
  split
  case isTrue h1 => exact Or.inl ⟨rfl, h1⟩
  case isFalse h1 =>
  have hnone : strFind content edit.search = none :=
    tier1_not_success _ edit (by simpa using h1)
  split
  case isTrue h2 => exact Or.inr (Or.inl ⟨hnone, rfl, h2⟩)
  case isFalse h2 =>
  split
  next r heq =>
    split_ifs at heq with hc hs
    injection heq with heq'
    subst heq'
    exact Or.inr (Or.inr (Or.inl ⟨hnone, rfl, hs⟩))
  next heq =>
  split
  next r heq2 =>
    cases hls : edit.line_start with
    | none => rw [hls] at heq2; exact absurd heq2 (by simp)
    | some v =>
      rw [hls] at heq2
      split_ifs at heq2 with hs
      injection heq2 with heq'
      subst heq'
      exact Or.inr (Or.inr (Or.inr (Or.inl ⟨hnone, rfl, hs⟩)))
  next heq2 => exact Or.inr (Or.inr (Or.inr (Or.inr ⟨hnone, rfl⟩)))

/-! ## Claim theorems: matching engine -/

/-- C4: for every content `C` and edit block `E` such that `E.search` is a
literal substring of `C`, `MatchingEngine.match` returns a result with
`success = true`, tier `exact`, confidence 1.0, and offsets
`[match_start, match_end)` with `C[match_start:match_end] = E.search`. -/
theorem exact_tier_matches_substring (env : Env) (content : Content) (edit : EditBlock)
    (minc : Rat) (h : ∃ i, edit.search.isPrefixOf (content.drop i) = true) :
    (MatchingEngine.match_ env content edit minc).success = true ∧
    (MatchingEngine.match_ env content edit minc).tier = .exact ∧
    (MatchingEngine.match_ env content edit minc).confidence = 1 ∧
    ∃ s e, (MatchingEngine.match_ env content edit minc).match_start = some s ∧
      (MatchingEngine.match_ env content edit minc).match_end = some e ∧
      pySliceNat content s e = edit.search := by
  obtain ⟨i0, hp0⟩ := h
  obtain ⟨i, hi⟩ := Option.isSome_iff_exists.1 (strFind_isSome_of_prefixOf hp0)
  rcases match_result_cases env content edit minc with
    ⟨heq, hs⟩ | ⟨hn, _, _⟩ | ⟨hn, _, _⟩ | ⟨hn, _, _⟩ | ⟨hn, _⟩
  · have ht1 : MatchingEngine.tier1_exact (mkCtx content minc) edit =
        { success := true, tier := .exact, confidence := 1,
          match_start := some i, match_end := some (i + edit.search.length) } := by
      rw [MatchingEngine.tier1_exact]
      have hc : strFind (mkCtx content minc).content edit.search = some i := hi
      rw [hc]
    rw [heq, ht1]
    refine ⟨rfl, rfl, rfl, i, i + edit.search.length, rfl, rfl, ?_⟩
    exact pySliceNat_of_prefixOf (strFind_some_prefixOf hi)
  all_goals (rw [hn] at hi; cases hi)

/-- Witness for C4 at a concrete input: `"b"` is a substring of `"ab"`. -/
theorem exact_tier_matches_substring_witness :
    (['b'] : Content).isPrefixOf ((['a', 'b'] : Content).drop 1) = true ∧
    (MatchingEngine.match_ defEnv ['a', 'b'] { search := ['b'], replace := ['c'] }
      (mkRat 85 100)).success = true := by
  refine ⟨by decide, ?_⟩
  exact (exact_tier_matches_substring defEnv ['a', 'b']
    { search := ['b'], replace := ['c'] } (mkRat 85 100) ⟨1, by decide⟩).1

/-- C9 (implicit): a `MatchResult` returned by the public `MatchingEngine.match`
never has tier `anchored` together with `success = true` — the anchored tier's
success branch requires a literal occurrence of the search text, which tier 1
would already have claimed, so it is unreachable through `match`. -/
theorem anchored_success_unreachable (env : Env) (content : Content) (edit : EditBlock)
    (minc : Rat) :
    (((MatchingEngine.match_ env content edit minc).tier == MatchTier.anchored) &&
      (MatchingEngine.match_ env content edit minc).success) = false := by
  rcases match_result_cases env content edit minc with
    ⟨heq, _⟩ | ⟨_, heq, _⟩ | ⟨hn, heq, hs⟩ | ⟨_, heq, _⟩ | ⟨_, heq⟩
  · rw [heq, Bool.and_eq_false_iff]
    left
    rw [tier1_tier]
    rfl
  · rw [heq, Bool.and_eq_false_iff]
    left
    rw [tier2_tier]
    rfl
  · exfalso
    rw [heq] at hs
    rw [tier3_not_success_of_no_occurrence env _ edit hn] at hs
    cases hs
  · rw [heq, Bool.and_eq_false_iff]
    left
    rw [tier4_tier]
    rfl
  · rw [heq, Bool.and_eq_false_iff]
    right
    exact tier5_not_success env _ edit

/-- C10 (implicit): an edit block with empty `search` is accepted rather than
rejected — the exact tier matches it at offsets `[0, 0)` with `success = true`
and confidence 1.0, and applying it inserts the replace text at the very
start of the content. -/
theorem empty_search_accepted (env : Env) (content replace : Content)
    (minc : Rat) (h : minc ≤ 1) :
    (MatchingEngine.match_ env content { search := [], replace := replace } minc).success = true ∧
    (MatchingEngine.match_ env content { search := [], replace := replace } minc).tier = .exact ∧
    (MatchingEngine.match_ env content { search := [], replace := replace } minc).confidence = 1 ∧
    (MatchingEngine.match_ env content { search := [], replace := replace } minc).match_start
      = some 0 ∧
    (MatchingEngine.match_ env content { search := [], replace := replace } minc).match_end
      = some 0 ∧
    (MultiEdit.apply_edit_block env minc (initLoopState content)
      { search := [], replace := replace }).modified_content = replace ++ content ∧
    (MultiEdit.apply_edit_block env minc (initLoopState content)
      { search := [], replace := replace }).edits_applied = 1 := by
  have hge : (1 : Rat) ≥ minc := h
  have hm : MatchingEngine.match_ env content { search := [], replace := replace } minc =
      { success := true, tier := .exact, confidence := 1,
        match_start := some 0, match_end := some 0 } := by
    rcases match_result_cases env content { search := [], replace := replace } minc with
      ⟨heq, _⟩ | ⟨hn, _, _⟩ | ⟨hn, _, _⟩ | ⟨hn, _, _⟩ | ⟨hn, _⟩
    · rw [heq, MatchingEngine.tier1_exact]
      have hc : strFind (mkCtx content minc).content
          (EditBlock.search { search := [], replace := replace }) = some 0 :=
        strFind_nil content
      rw [hc]
      rfl
    all_goals (rw [strFind_nil] at hn; cases hn)
  refine ⟨by rw [hm], by rw [hm], by rw [hm], by rw [hm], by rw [hm], ?_, ?_⟩ <;>
    simp [MultiEdit.apply_edit_block, initLoopState, hm, hge, pySliceNat]

/-- Witness for C10 at a concrete input. -/
theorem empty_search_accepted_witness :
    (mkRat 85 100 ≤ 1) ∧
    (MatchingEngine.match_ defEnv ['a'] { search := [], replace := ['z'] }
      (mkRat 85 100)).success = true ∧
    (MultiEdit.apply_edit_block defEnv (mkRat 85 100) (initLoopState ['a'])
      { search := [], replace := ['z'] }).modified_content = ['z', 'a'] := by
  have h := empty_search_accepted defEnv ['a'] ['z'] (mkRat 85 100) (by norm_num)
  exact ⟨by norm_num, h.1, h.2.2.2.2.2.1⟩

/-- C2: any `MatchResult` produced by the fuzzy tier has `success = false`
regardless of its similarity score; when no similarity backend is available it
carries the explicit "unavailable" warning; when the best similarity score is
below 0.70 it reports tier `FAILED` with no suggestion; and a fuzzy-tier
result surfaced through `MatchingEngine.match` is likewise never successful. -/
theorem fuzzy_tier_never_succeeds (env : Env) (ctx : MatchContext) (edit : EditBlock)
    (content : Content) (minc : Rat) :
    (MatchingEngine.tier5_fuzzy env ctx edit).success = false ∧
    (env.hasRapidfuzz = false →
      (MatchingEngine.tier5_fuzzy env ctx edit).warning =
        some "Fuzzy matching unavailable (rapidfuzz not installed)") ∧
    (env.hasRapidfuzz = true → (MatchingEngine.fuzzyBest env ctx edit).1 < mkRat 70 100 →
      (MatchingEngine.tier5_fuzzy env ctx edit).tier = .failed ∧
      (MatchingEngine.tier5_fuzzy env ctx edit).suggestion = none) ∧
    ((MatchingEngine.match_ env content edit minc).tier = .fuzzy →
      (MatchingEngine.match_ env content edit minc).success = false) := by
  refine ⟨tier5_not_success env ctx edit, ?_, ?_, ?_⟩
  · intro hrf
    rw [MatchingEngine.tier5_fuzzy, hrf]
    rfl
  · intro hrf hlt
    simp only [MatchingEngine.tier5_fuzzy, hrf, Bool.not_true, Bool.false_eq_true, if_false]
    split
    next hge2 => exact absurd hge2 (not_le.2 hlt)
    next => exact ⟨rfl, rfl⟩
  · intro htier
    rcases match_result_cases env content edit minc with
      ⟨heq, _⟩ | ⟨_, heq, _⟩ | ⟨_, heq, _⟩ | ⟨_, heq, _⟩ | ⟨_, heq⟩
    · rw [heq, tier1_tier] at htier; cases htier
    · rw [heq, tier2_tier] at htier; cases htier
    · rw [heq, tier3_tier] at htier; cases htier
    · rw [heq, tier4_tier] at htier; cases htier
    · rw [heq]; exact tier5_not_success env _ edit

/-- Witness for C2: both the "unavailable" branch (no rapidfuzz) and the
below-floor branch (rapidfuzz present, best score 0 < 0.70), at concrete
inputs. -/
theorem fuzzy_tier_never_succeeds_witness :
    (MatchingEngine.tier5_fuzzy defEnv (mkCtx ['a'] (mkRat 85 100))
      { search := ['z', 'z'], replace := [] }).success = false ∧
    (MatchingEngine.tier5_fuzzy defEnv (mkCtx ['a'] (mkRat 85 100))
      { search := ['z', 'z'], replace := [] }).warning =
      some "Fuzzy matching unavailable (rapidfuzz not installed)" ∧
    (MatchingEngine.tier5_fuzzy { defEnv with hasRapidfuzz := true }
      (mkCtx ['a', 'b'] (mkRat 85 100)) { search := ['z', 'z'], replace := [] }).tier = .failed ∧
    (MatchingEngine.tier5_fuzzy { defEnv with hasRapidfuzz := true }
      (mkCtx ['a', 'b'] (mkRat 85 100)) { search := ['z', 'z'], replace := [] }).suggestion
      = none := by
  have h1 := fuzzy_tier_never_succeeds defEnv (mkCtx ['a'] (mkRat 85 100))
    { search := ['z', 'z'], replace := [] } ['a'] (mkRat 85 100)
  have h2 := fuzzy_tier_never_succeeds { defEnv with hasRapidfuzz := true }
    (mkCtx ['a', 'b'] (mkRat 85 100)) { search := ['z', 'z'], replace := [] } ['a', 'b'] (mkRat 85 100)
  have h2c := h2.2.2.1 rfl (by decide)
  exact ⟨h1.1, h1.2.1 rfl, h2c.1, h2c.2⟩

/-! ## Edit-loop structure lemmas -/

theorem run_edit_blocks_append (env : Env) (minc : Rat) (xs ys : List EditBlock)
    (st : EditLoopState) :
    MultiEdit.run_edit_blocks env minc (xs ++ ys) st =
      MultiEdit.run_edit_blocks env minc ys (MultiEdit.run_edit_blocks env minc xs st) := by
  rw [MultiEdit.run_edit_blocks, MultiEdit.run_edit_blocks, MultiEdit.run_edit_blocks,
    List.foldl_append]

theorem run_edit_blocks_cons (env : Env) (minc : Rat) (e : EditBlock) (es : List EditBlock)
    (st : EditLoopState) :
    MultiEdit.run_edit_blocks env minc (e :: es) st =
      MultiEdit.run_edit_blocks env minc es (MultiEdit.apply_edit_block env minc st e) := by
  rw [MultiEdit.run_edit_blocks, MultiEdit.run_edit_blocks, List.foldl_cons]

/-- `apply_edit_block` appends exactly one block result, whose recorded
`match_result` is the match of the edit against the state's current content. -/
theorem apply_edit_block_blocks (env : Env) (minc : Rat) (st : EditLoopState)
    (e : EditBlock) :
    ∃ br, (MultiEdit.apply_edit_block env minc st e).block_results =
        st.block_results ++ [br] ∧
      br.match_result = MatchingEngine.match_ env st.modified_content e minc := by
  rw [MultiEdit.apply_edit_block]
  dsimp only
  split
  · split
    · exact ⟨_, rfl, rfl⟩
    · exact ⟨_, rfl, rfl⟩
  · exact ⟨_, rfl, rfl⟩

theorem run_edit_blocks_blocks_extend (env : Env) (minc : Rat) (es : List EditBlock)
    (st : EditLoopState) :
    ∃ ex, (MultiEdit.run_edit_blocks env minc es st).block_results =
      st.block_results ++ ex := by
  induction es generalizing st with
  | nil => exact ⟨[], by rw [MultiEdit.run_edit_blocks, List.foldl_nil, List.append_nil]⟩
  | cons e t ih =>
    rw [run_edit_blocks_cons]
    obtain ⟨br, hbr, _⟩ := apply_edit_block_blocks env minc st e
    obtain ⟨ex, hex⟩ := ih (MultiEdit.apply_edit_block env minc st e)
    exact ⟨[br] ++ ex, by rw [hex, hbr, List.append_assoc]⟩

theorem run_edit_blocks_blocks_length (env : Env) (minc : Rat) (es : List EditBlock)
    (st : EditLoopState) :
    (MultiEdit.run_edit_blocks env minc es st).block_results.length =
      st.block_results.length + es.length := by
  induction es generalizing st with
  | nil => rw [MultiEdit.run_edit_blocks, List.foldl_nil, List.length_nil, Nat.add_zero]
  | cons e t ih =>
    rw [run_edit_blocks_cons, ih]
    obtain ⟨br, hbr, _⟩ := apply_edit_block_blocks env minc st e
    rw [hbr, List.length_append, List.length_cons]
    simp [Nat.add_comm, Nat.add_assoc, Nat.add_left_comm]

/-- C8: edits within one file are applied strictly left-to-right on the
evolving content — the block result recorded for the i-th edit block is its
match against the content produced by edits `0..i-1` of the same file (not the
original content), and consequently edit order matters: a concrete pair of
edits gives different final contents in the two orders, the second edit
matching text that only exists in the evolved content. -/
theorem edits_apply_left_to_right (env : Env) (minc : Rat) (content : Content)
    (es₁ es₂ : List EditBlock) (e : EditBlock) :
    (((MultiEdit.run_edit_blocks env minc (es₁ ++ e :: es₂)
          (initLoopState content)).block_results.get? es₁.length).map
        (fun b => b.match_result) =
      some (MatchingEngine.match_ env
        (MultiEdit.run_edit_blocks env minc es₁ (initLoopState content)).modified_content
        e minc)) ∧
    (MultiEdit.run_edit_blocks defEnv (mkRat 85 100)
      [{ search := ['a'], replace := ['b'] }, { search := ['b', 'b'], replace := ['X'] }]
      (initLoopState ['a', 'b'])).modified_content = ['X'] ∧
    (MultiEdit.run_edit_blocks defEnv (mkRat 85 100)
      [{ search := ['b', 'b'], replace := ['X'] }, { search := ['a'], replace := ['b'] }]
      (initLoopState ['a', 'b'])).modified_content = ['b', 'b'] := by
  refine ⟨?_, by decide, by decide⟩
  rw [run_edit_blocks_append, run_edit_blocks_cons]
  set S := MultiEdit.run_edit_blocks env minc es₁ (initLoopState content) with hS
  obtain ⟨br, hbr, hmr⟩ := apply_edit_block_blocks env minc S e
  obtain ⟨ex, hex⟩ := run_edit_blocks_blocks_extend env minc es₂
    (MultiEdit.apply_edit_block env minc S e)
  rw [hex, hbr]
  have hlen : S.block_results.length = es₁.length := by
    rw [hS, run_edit_blocks_blocks_length]
    simp [initLoopState]
  rw [List.append_assoc, List.get?_append_right (by omega)]
  rw [hlen, Nat.sub_self]
  simp [hmr]

/-! ## Claim C3: `read_file` caching behaviour -/

/-- C3 (amended): `EditTransaction.read_file` reads the current on-disk
content and stores it into `original_contents` on every call, overwriting any
previously cached value — a repeated call for the same path re-reads the file
and returns the current content, not the cached one. -/
theorem read_file_rereads_and_overwrites (fs : FS) (t : EditTransaction) (p : String)
    (c₀ c : Content) (hcache : dictLookup t.original_contents p = some c₀)
    (hdisk : fs p = some c) :
    ∃ t', EditTransaction.read_file fs t p = some (c, t') ∧
      dictLookup t'.original_contents p = some c := by
  refine ⟨{ t with original_contents := dictInsert t.original_contents p c }, ?_, ?_⟩
  · rw [EditTransaction.read_file, hdisk]
  · exact dictLookup_insert_self t.original_contents p c

/-- The transaction state after a first read of `/a` (content `"x"`). -/
def c3Txn : EditTransaction :=
  { workdir := "/w", original_contents := [("/a", ['x'])] }

def c3FS1 : FS := fun p => if p = "/a" then some ['x'] else none

/-- The filesystem of `c3FS1` after `/a` changed on disk to `"y"`. -/
def c3FS2 : FS := fsWrite c3FS1 "/a" ['y']

/-- Counterexample to C3 as stated: after a first read cached `"x"`, a second
`read_file` call for the same path within the same transaction does re-read
the file — it returns the new on-disk content `"y"`, not the cached `"x"`,
and overwrites `original_contents`. -/
theorem read_file_not_idempotent_counterexample :
    EditTransaction.read_file c3FS1 { workdir := "/w" } "/a" = some (['x'], c3Txn) ∧
    dictLookup c3Txn.original_contents "/a" = some ['x'] ∧
    (EditTransaction.read_file c3FS2 c3Txn "/a").map (fun r => r.1) = some ['y'] ∧
    (['y'] : Content) ≠ ['x'] ∧
    (EditTransaction.read_file c3FS2 c3Txn "/a").map
      (fun r => dictLookup r.2.original_contents "/a") = some (some ['y']) := by
  refine ⟨rfl, rfl, rfl, by decide, rfl⟩

/-- Witness for the amended C3 at a concrete input. -/
theorem read_file_rereads_and_overwrites_witness :
    dictLookup c3Txn.original_contents "/a" = some ['x'] ∧
    c3FS2 "/a" = some ['y'] ∧
    ∃ t', EditTransaction.read_file c3FS2 c3Txn "/a" = some (['y'], t') ∧
      dictLookup t'.original_contents "/a" = some ['y'] :=
  ⟨rfl, rfl, read_file_rereads_and_overwrites c3FS2 c3Txn "/a" ['x'] ['y'] rfl rfl⟩

/-! ## Claim C7: safety checker -/

theorem check_all_fails_of_merge (fs : FS) (w : String)
    (h : pathExists fs (joinPath w ".git/MERGE_HEAD") = true) :
    (SafetyChecker.check_all fs w).1 = false := by
  rw [SafetyChecker.check_all]
  simp [h]
  split <;> split <;> simp

/-- C7: `SafetyChecker.checkAll` evaluates all three repository checks without
short-circuiting — each failing check contributes its own distinct error
message, independently of the others — and `passed` is true iff the error
list is empty; moreover, when the merge marker exists, every orchestrator run
returns state "failed" with an error mentioning "merge", before any target
file is read or written (the filesystem is unchanged and the result depends
only on the four repository markers). -/
theorem safety_checker_gate (env : Env) (cfg : MultiEditConfig) (args : MultiEditArgs)
    (fs : FS) (hmerge : pathExists fs (joinPath cfg.workdir ".git/MERGE_HEAD") = true) :
    (∀ (fs' : FS) (w : String),
      ((SafetyChecker.check_all fs' w).1 = true ↔ (SafetyChecker.check_all fs' w).2 = [])) ∧
    (∀ (fs' : FS) (w : String),
      (SafetyChecker.mergeMsg ∈ (SafetyChecker.check_all fs' w).2 ↔
        pathExists fs' (joinPath w ".git/MERGE_HEAD") = true)) ∧
    (∀ (fs' : FS) (w : String),
      (SafetyChecker.rebaseMsg ∈ (SafetyChecker.check_all fs' w).2 ↔
        (pathExists fs' (joinPath w ".git/rebase-merge") = true ∨
          pathExists fs' (joinPath w ".git/rebase-apply") = true))) ∧
    (∀ (fs' : FS) (w : String),
      (SafetyChecker.lockMsg ∈ (SafetyChecker.check_all fs' w).2 ↔
        pathExists fs' (joinPath w ".git/index.lock") = true)) ∧
    (SafetyChecker.mergeMsg ≠ SafetyChecker.rebaseMsg ∧
      SafetyChecker.mergeMsg ≠ SafetyChecker.lockMsg ∧
      SafetyChecker.rebaseMsg ≠ SafetyChecker.lockMsg) ∧
    (MultiEdit.run env cfg args fs).1.state = "failed" ∧
    containsSub (MultiEdit.run env cfg args fs).1.summary "merge" = true ∧
    (MultiEdit.run env cfg args fs).2 = fs ∧
    (∀ fs' : FS,
      pathExists fs' (joinPath cfg.workdir ".git/MERGE_HEAD")
        = pathExists fs (joinPath cfg.workdir ".git/MERGE_HEAD") →
      pathExists fs' (joinPath cfg.workdir ".git/rebase-merge")
        = pathExists fs (joinPath cfg.workdir ".git/rebase-merge") →
      pathExists fs' (joinPath cfg.workdir ".git/rebase-apply")
        = pathExists fs (joinPath cfg.workdir ".git/rebase-apply") →
      pathExists fs' (joinPath cfg.workdir ".git/index.lock")
        = pathExists fs (joinPath cfg.workdir ".git/index.lock") →
      (MultiEdit.run env cfg args fs').1 = (MultiEdit.run env cfg args fs).1) := by
  have hfail : (SafetyChecker.check_all fs cfg.workdir).1 = false :=
    check_all_fails_of_merge fs cfg.workdir hmerge
  have hrun : MultiEdit.run env cfg args fs =
      ({ success := false, state := "failed",
         summary := "Safety check failed: " ++
           String.intercalate "; " (SafetyChecker.check_all fs cfg.workdir).2 }, fs) := by
    rw [MultiEdit.run]
    dsimp only
    rw [hfail]
    rfl
  refine ⟨?_, ?_, ?_, ?_, ⟨by decide, by decide, by decide⟩, ?_, ?_, ?_, ?_⟩
  · intro fs' w
    rw [SafetyChecker.check_all]
    by_cases h1 : pathExists fs' (joinPath w ".git/MERGE_HEAD") = true <;>
      by_cases h2 : (pathExists fs' (joinPath w ".git/rebase-merge") ||
        pathExists fs' (joinPath w ".git/rebase-apply")) = true <;>
      by_cases h3 : pathExists fs' (joinPath w ".git/index.lock") = true <;>
      simp [h1, h2, h3]
  · intro fs' w
    rw [SafetyChecker.check_all]
    by_cases h1 : pathExists fs' (joinPath w ".git/MERGE_HEAD") = true <;>
      by_cases h2 : (pathExists fs' (joinPath w ".git/rebase-merge") ||
        pathExists fs' (joinPath w ".git/rebase-apply")) = true <;>
      by_cases h3 : pathExists fs' (joinPath w ".git/index.lock") = true <;>
      simp [h1, h2, h3, SafetyChecker.mergeMsg, SafetyChecker.rebaseMsg, SafetyChecker.lockMsg]
  · intro fs' w
    rw [SafetyChecker.check_all]
    by_cases h1 : pathExists fs' (joinPath w ".git/MERGE_HEAD") = true <;>
      by_cases h2 : pathExists fs' (joinPath w ".git/rebase-merge") = true <;>
      by_cases h3 : pathExists fs' (joinPath w ".git/rebase-apply") = true <;>
      by_cases h4 : pathExists fs' (joinPath w ".git/index.lock") = true <;>
      simp [h1, h2, h3, h4, SafetyChecker.mergeMsg, SafetyChecker.rebaseMsg,
        SafetyChecker.lockMsg]
  · intro fs' w
    rw [SafetyChecker.check_all]
    by_cases h1 : pathExists fs' (joinPath w ".git/MERGE_HEAD") = true <;>
      by_cases h2 : (pathExists fs' (joinPath w ".git/rebase-merge") ||
        pathExists fs' (joinPath w ".git/rebase-apply")) = true <;>
      by_cases h3 : pathExists fs' (joinPath w ".git/index.lock") = true <;>
      simp [h1, h2, h3, SafetyChecker.mergeMsg, SafetyChecker.rebaseMsg, SafetyChecker.lockMsg]
  · rw [hrun]
  · rw [hrun]
    dsimp only
    by_cases h2 : (pathExists fs (joinPath cfg.workdir ".git/rebase-merge") ||
      pathExists fs (joinPath cfg.workdir ".git/rebase-apply")) = true <;>
      by_cases h3 : pathExists fs (joinPath cfg.workdir ".git/index.lock") = true
    all_goals
      (rw [SafetyChecker.check_all]
       simp only [hmerge, h2, h3]
       decide)
  · rw [hrun]
  · intro fs' e1 e2 e3 e4
    have hca' : SafetyChecker.check_all fs' cfg.workdir =
        SafetyChecker.check_all fs cfg.workdir := by
      simp only [SafetyChecker.check_all]
      rw [e1, e2, e3, e4]
    have hfail' : (SafetyChecker.check_all fs' cfg.workdir).1 = false := by
      rw [hca']; exact hfail
    have hrun' : MultiEdit.run env cfg args fs' =
        ({ success := false, state := "failed",
           summary := "Safety check failed: " ++
             String.intercalate "; " (SafetyChecker.check_all fs' cfg.workdir).2 }, fs') := by
      rw [MultiEdit.run]
      dsimp only
      rw [hfail']
      rfl
    rw [hrun, hrun', hca']

/-- Witness for C7: a filesystem whose only entry is the merge marker. -/
def c7FS : FS := fun p => if p = "/w/.git/MERGE_HEAD" then some [] else none

theorem safety_checker_gate_witness :
    pathExists c7FS (joinPath "/w" ".git/MERGE_HEAD") = true ∧
    (MultiEdit.run defEnv { workdir := "/w" } { files := [] } c7FS).1.state = "failed" ∧
    containsSub (MultiEdit.run defEnv { workdir := "/w" } { files := [] } c7FS).1.summary
      "merge" = true := by
  have h := safety_checker_gate defEnv { workdir := "/w" } { files := [] } c7FS (by decide)
  exact ⟨by decide, h.2.2.2.2.2.1, h.2.2.2.2.2.2.1⟩

/-! ## Claim C6: `can_apply` -/

theorem run_files_can_apply (env : Env) (args : MultiEditArgs) (cfg : MultiEditConfig)
    (wd : String) (te : Nat) :
    ∀ (files : List FileEdit) (acc : RunAcc),
      (MultiEdit.run_files env args cfg wd te files acc).1.state ≠ "rolled_back" →
      ((MultiEdit.run_files env args cfg wd te files acc).1.can_apply = true ↔
        ((MultiEdit.run_files env args cfg wd te files acc).1.results.all
            (fun r => r.success) = true ∧
          args.dry_run = true)) := by
  intro files
  induction files with
  | nil =>
    intro acc h
    rw [MultiEdit.run_files]
    dsimp only
    simp [Bool.and_eq_true]
  | cons fe rest ih =>
    intro acc
    rw [MultiEdit.run_files]
    dsimp only
    split
    · intro h
      exact absurd rfl h
    · intro h
      exact ih _ h

/-- C6: for every run that reaches the aggregate result (safety gate passed,
not rolled back; the model has no exception path), `can_apply` is true iff
every file's result succeeded and the run was in `dry_run` (preview) mode. -/
theorem can_apply_iff_success_and_dry_run (env : Env) (cfg : MultiEditConfig)
    (args : MultiEditArgs) (fs : FS)
    (hsafe : (SafetyChecker.check_all fs cfg.workdir).1 = true)
    (hstate : (MultiEdit.run env cfg args fs).1.state ≠ "rolled_back") :
    ((MultiEdit.run env cfg args fs).1.can_apply = true ↔
      ((MultiEdit.run env cfg args fs).1.results.all (fun r => r.success) = true ∧
        args.dry_run = true)) := by
  have hrun : MultiEdit.run env cfg args fs =
      MultiEdit.run_files env args cfg cfg.workdir
        ((args.files.map (fun f => f.edits.length)).sum) args.files
        { tr := { workdir := cfg.workdir }, fs := fs } := by
    rw [MultiEdit.run]
    dsimp only
    rw [hsafe]
    rfl
  rw [hrun] at hstate ⊢
  exact run_files_can_apply env args cfg cfg.workdir _ args.files _ hstate

/-- Witness for C6: an empty dry run on an empty filesystem previews
successfully with `can_apply = true`. -/
theorem can_apply_iff_success_and_dry_run_witness :
    (SafetyChecker.check_all (fun _ => none) "/w").1 = true ∧
    (MultiEdit.run defEnv { workdir := "/w" } { files := [] } (fun _ => none)).1.state
      ≠ "rolled_back" ∧
    (MultiEdit.run defEnv { workdir := "/w" } { files := [] } (fun _ => none)).1.can_apply
      = true := by
  refine ⟨by decide, by decide, ?_⟩
  exact (can_apply_iff_success_and_dry_run defEnv { workdir := "/w" } { files := [] }
    (fun _ => none) (by decide) (by decide)).2 ⟨by decide, rfl⟩

/-! ## Claim C5: writes only in genuine apply mode -/

theorem read_file_preserves (fs : FS) (t : EditTransaction) (path : String)
    (c : Content) (t' : EditTransaction)
    (h : EditTransaction.read_file fs t path = some (c, t')) :
    t'.backup_paths = t.backup_paths ∧ t'.modified_contents = t.modified_contents ∧
    t'.original_contents = dictInsert t.original_contents path c ∧ fs path = some c := by
  rw [EditTransaction.read_file] at h
  cases hf : fs path with
  | none => rw [hf] at h; cases h
  | some c' =>
    rw [hf] at h
    injection h with h'
    injection h' with hc ht
    subst hc
    subst ht
    exact ⟨rfl, rfl, rfl, rfl⟩

/-- Either `_process_file` leaves the filesystem, backup map and modified map
untouched, or the run is a genuine apply (`dry_run` and `check_only` both
false) with at least one edit resolved. -/
theorem process_file_write_shape (env : Env) (cfg : MultiEditConfig) (args : MultiEditArgs)
    (fe : FileEdit) (tr : EditTransaction) (fs : FS) (wd : String) :
    ((MultiEdit.process_file env cfg args fe tr fs wd).2.1.backup_paths = tr.backup_paths ∧
      (MultiEdit.process_file env cfg args fe tr fs wd).2.1.modified_contents
        = tr.modified_contents ∧
      (MultiEdit.process_file env cfg args fe tr fs wd).2.2 = fs) ∨
    (args.dry_run = false ∧ args.check_only = false ∧
      (MultiEdit.process_file env cfg args fe tr fs wd).1.edits_applied > 0) := by
  rw [MultiEdit.process_file]
  dsimp only
  split
  · exact Or.inl ⟨rfl, rfl, rfl⟩
  split
  · exact Or.inl ⟨rfl, rfl, rfl⟩
  split
  next heq => exact Or.inl ⟨rfl, rfl, rfl⟩
  next content tr₁ heq =>
    obtain ⟨hb, hm, _, _⟩ := read_file_preserves fs tr _ content tr₁ heq
    split
    · exact Or.inl ⟨hb, hm, rfl⟩
    · dsimp only
      split
      next hcond =>
        rw [Bool.and_eq_true, Bool.and_eq_true] at hcond
        obtain ⟨⟨hdr, hco⟩, hnz⟩ := hcond
        rw [Bool.not_eq_true'] at hdr hco
        refine Or.inr ⟨hdr, hco, ?_⟩
        dsimp only
        exact of_decide_eq_true hnz
      next => exact Or.inl ⟨hb, hm, rfl⟩

theorem rollback_all_empty (fs : FS) (t : EditTransaction)
    (h : t.modified_contents = []) : EditTransaction.rollback_all fs t = (0, fs) := by
  rw [EditTransaction.rollback_all, h]
  rfl

theorem run_files_check_only_fs (env : Env) (args : MultiEditArgs) (cfg : MultiEditConfig)
    (wd : String) (te : Nat) (hco : args.check_only = true) :
    ∀ (files : List FileEdit) (acc : RunAcc), acc.tr.modified_contents = [] →
      (MultiEdit.run_files env args cfg wd te files acc).2 = acc.fs := by
  intro files
  induction files with
  | nil =>
    intro acc hmod
    rw [MultiEdit.run_files]
  | cons fe rest ih =>
    intro acc hmod
    rw [MultiEdit.run_files]
    dsimp only
    rcases process_file_write_shape env cfg args fe acc.tr acc.fs wd with
      ⟨hb, hm, hfs⟩ | ⟨_, hco', _⟩
    · split
      · rw [rollback_all_empty _ _ (by rw [hm, hmod])]
        exact hfs
      · rw [ih _ (by rw [hm, hmod])]
        exact hfs
    · rw [hco] at hco'
      cases hco'

/-- C5: a file's content is written (and a backup optionally created) only
when `check_only` is false AND `dry_run` is false AND at least one edit in
that file resolved; in particular a `check_only` run never writes to disk. -/
theorem writes_only_in_apply_mode (env : Env) (cfg : MultiEditConfig) (args : MultiEditArgs) :
    (∀ (fe : FileEdit) (tr : EditTransaction) (fs : FS) (wd : String),
      (args.check_only = true ∨ args.dry_run = true ∨
        (MultiEdit.process_file env cfg args fe tr fs wd).1.edits_applied = 0) →
      ((MultiEdit.process_file env cfg args fe tr fs wd).2.2 = fs ∧
        (MultiEdit.process_file env cfg args fe tr fs wd).2.1.backup_paths
          = tr.backup_paths ∧
        (MultiEdit.process_file env cfg args fe tr fs wd).2.1.modified_contents
          = tr.modified_contents)) ∧
    (args.check_only = true → ∀ fs : FS, (MultiEdit.run env cfg args fs).2 = fs) := by
  constructor
  · intro fe tr fs wd h
    rcases process_file_write_shape env cfg args fe tr fs wd with
      ⟨hb, hm, hfs⟩ | ⟨hdr, hco, hnz⟩
    · exact ⟨hfs, hb, hm⟩
    · exfalso
      rcases h with h | h | h
      · rw [hco] at h; cases h
      · rw [hdr] at h; cases h
      · omega
  · intro hco fs
    rw [MultiEdit.run]
    dsimp only
    split
    · rfl
    · exact run_files_check_only_fs env args cfg cfg.workdir _ hco args.files _ rfl

/-- Witness for C5: a `check_only` run whose single edit would resolve still
leaves the filesystem untouched. -/
def c5FS : FS := fun p => if p = "/a" then some ['x'] else none

theorem writes_only_in_apply_mode_witness :
    (MultiEditArgs.check_only
      { files := [{ path := "/a", edits := [{ search := ['x'], replace := ['y'] }] }],
        check_only := true } = true) ∧
    (MultiEdit.run defEnv { workdir := "/w" }
      { files := [{ path := "/a", edits := [{ search := ['x'], replace := ['y'] }] }],
        check_only := true } c5FS).2 = c5FS ∧
    (MultiEdit.process_file defEnv { workdir := "/w" }
      { files := [{ path := "/a", edits := [{ search := ['x'], replace := ['y'] }] }],
        check_only := true }
      { path := "/a", edits := [{ search := ['x'], replace := ['y'] }] }
      { workdir := "/w" } c5FS "/w").2.2 = c5FS := by
  have h := writes_only_in_apply_mode defEnv { workdir := "/w" }
    { files := [{ path := "/a", edits := [{ search := ['x'], replace := ['y'] }] }],
      check_only := true }
  exact ⟨rfl, h.2 rfl c5FS,
    (h.1 { path := "/a", edits := [{ search := ['x'], replace := ['y'] }] }
      { workdir := "/w" } c5FS "/w" (Or.inl rfl)).1⟩

/-! ## Claim C1: fail-fast rollback -/

theorem dictLookup_isSome_iff_any (d : List (String × α)) (q : String) :
    (dictLookup d q).isSome = d.any (fun pc => decide (pc.1 = q)) := by
  induction d with
  | nil => rfl
  | cons kv t ih =>
    obtain ⟨k, v⟩ := kv
    rw [dictLookup, List.any_cons]
    by_cases h : q = k
    · subst h
      simp
    · rw [if_neg h]
      have hk : ¬ (k = q) := fun e => h e.symm
      simp [hk, ih]

/-- Pointwise effect of the `rollback_all` fold on the filesystem. -/
theorem rollback_fold_apply (tr : EditTransaction) (l : List (String × Content)) :
    ∀ (n : Nat) (fs : FS) (q : String),
      ((l.foldl (fun acc pc =>
          let r := EditTransaction.rollback acc.2 tr pc.1
          (acc.1 + (if r.1 then 1 else 0), r.2)) (n, fs)).2) q =
        if l.any (fun pc => decide (pc.1 = q)) &&
            (dictLookup tr.original_contents q).isSome then
          dictLookup tr.original_contents q
        else fs q := by
  induction l with
  | nil =>
    intro n fs q
    simp
  | cons pc t ih =>
    intro n fs q
    obtain ⟨p, c⟩ := pc
    rw [List.foldl_cons, List.any_cons]
    dsimp only
    rw [EditTransaction.rollback]
    cases ho : dictLookup tr.original_contents p with
    | some o =>
      dsimp only
      rw [ih]
      by_cases hq : p = q
      · subst hq
        rw [ho]
        by_cases ht : t.any (fun pc => decide (pc.1 = p)) = true
        · simp [ht, fsWrite_self, ho]
        · simp only [Bool.not_eq_true] at ht
          simp [ht, fsWrite_self, ho]
      · have hw : fsWrite fs p o q = fs q := fsWrite_ne fs p q o (fun e => hq e.symm)
        rw [hw, decide_eq_false hq, Bool.false_or]
    | none =>
      dsimp only
      rw [ih]
      by_cases hq : p = q
      · subst hq
        rw [ho]
        simp
      · rw [decide_eq_false hq, Bool.false_or]

/-- When the transaction invariants hold, `rollback_all` restores the
filesystem to `init` exactly. -/
theorem rollback_all_restores (init : FS) (tr : EditTransaction) (fs : FS)
    (h1 : ∀ p, dictLookup tr.modified_contents p = none → fs p = init p)
    (h2 : ∀ p c, dictLookup tr.original_contents p = some c → init p = some c)
    (h3 : ∀ p, (dictLookup tr.modified_contents p).isSome = true →
      (dictLookup tr.original_contents p).isSome = true) :
    (EditTransaction.rollback_all fs tr).2 = init := by
  funext q
  rw [EditTransaction.rollback_all, rollback_fold_apply]
  by_cases hq : (dictLookup tr.modified_contents q).isSome = true
  · have hany : tr.modified_contents.any (fun pc => decide (pc.1 = q)) = true := by
      rw [← dictLookup_isSome_iff_any]
      exact hq
    have horig := h3 q hq
    obtain ⟨c, hc⟩ := Option.isSome_iff_exists.1 horig
    rw [hany, horig, hc]
    simp [(h2 q c hc).symm]
  · have hn : dictLookup tr.modified_contents q = none :=
      Option.not_isSome_iff_eq_none.1 (by simpa using hq)
    have hany : tr.modified_contents.any (fun pc => decide (pc.1 = q)) = false := by
      rw [← dictLookup_isSome_iff_any, hn]
      rfl
    rw [hany]
    simp [h1 q hn]

/-- Processing one file whose (resolved) path was not read before preserves
the transaction invariants that make rollback exact, provided no backups are
being created. -/
theorem process_file_txn_inv (env : Env) (cfg : MultiEditConfig) (args : MultiEditArgs)
    (fe : FileEdit) (tr : EditTransaction) (fs : FS) (wd : String) (init : FS)
    (readPaths : List String)
    (hcb : args.create_backup = false)
    (h1 : ∀ p, dictLookup tr.modified_contents p = none → fs p = init p)
    (h2 : ∀ p c, dictLookup tr.original_contents p = some c → init p = some c)
    (h3 : ∀ p, (dictLookup tr.modified_contents p).isSome = true →
      (dictLookup tr.original_contents p).isSome = true)
    (h4 : ∀ p, (dictLookup tr.original_contents p).isSome = true → p ∈ readPaths)
    (hq : resolvePath wd fe.path ∉ readPaths) :
    (∀ p, dictLookup (MultiEdit.process_file env cfg args fe tr fs wd).2.1.modified_contents p
        = none →
      (MultiEdit.process_file env cfg args fe tr fs wd).2.2 p = init p) ∧
    (∀ p c, dictLookup (MultiEdit.process_file env cfg args fe tr fs wd).2.1.original_contents
        p = some c → init p = some c) ∧
    (∀ p, (dictLookup (MultiEdit.process_file env cfg args fe tr fs
        wd).2.1.modified_contents p).isSome = true →
      (dictLookup (MultiEdit.process_file env cfg args fe tr fs
        wd).2.1.original_contents p).isSome = true) ∧
    (∀ p, (dictLookup (MultiEdit.process_file env cfg args fe tr fs
        wd).2.1.original_contents p).isSome = true →
      p ∈ readPaths ++ [resolvePath wd fe.path]) := by
  rw [MultiEdit.process_file]
  dsimp only
  split
  · exact ⟨h1, h2, h3, fun p hp => List.mem_append_left _ (h4 p hp)⟩
  split
  · exact ⟨h1, h2, h3, fun p hp => List.mem_append_left _ (h4 p hp)⟩
  split
  next heq => exact ⟨h1, h2, h3, fun p hp => List.mem_append_left _ (h4 p hp)⟩
  next content tr₁ heq =>
  obtain ⟨hb, hm, ho, hdisk⟩ := read_file_preserves fs tr _ content tr₁ heq
  have hmodq : dictLookup tr.modified_contents (resolvePath wd fe.path) = none := by
    cases hmo : dictLookup tr.modified_contents (resolvePath wd fe.path) with
    | none => rfl
    | some v => exact absurd (h4 _ (h3 _ (by rw [hmo]; rfl))) hq
  have hinitq : init (resolvePath wd fe.path) = some content := by
    rw [← h1 _ hmodq]
    exact hdisk
  have h1' : ∀ p, dictLookup tr₁.modified_contents p = none → fs p = init p := by
    intro p hp
    rw [hm] at hp
    exact h1 p hp
  have h2' : ∀ p c', dictLookup tr₁.original_contents p = some c' → init p = some c' := by
    intro p c' hp
    rw [ho] at hp
    by_cases hpq : p = resolvePath wd fe.path
    · subst hpq
      rw [dictLookup_insert_self] at hp
      injection hp with hp'
      rw [← hp']
      exact hinitq
    · rw [dictLookup_insert_ne _ _ _ _ hpq] at hp
      exact h2 p c' hp
  have h3' : ∀ p, (dictLookup tr₁.modified_contents p).isSome = true →
      (dictLookup tr₁.original_contents p).isSome = true := by
    intro p hp
    rw [hm] at hp
    rw [ho]
    by_cases hpq : p = resolvePath wd fe.path
    · subst hpq
      rw [dictLookup_insert_self]
      rfl
    · rw [dictLookup_insert_ne _ _ _ _ hpq]
      exact h3 p hp
  have h4' : ∀ p, (dictLookup tr₁.original_contents p).isSome = true →
      p ∈ readPaths ++ [resolvePath wd fe.path] := by
    intro p hp
    rw [ho] at hp
    by_cases hpq : p = resolvePath wd fe.path
    · subst hpq
      exact List.mem_append_right _ (List.mem_singleton.2 rfl)
    · rw [dictLookup_insert_ne _ _ _ _ hpq] at hp
      exact List.mem_append_left _ (h4 p hp)
  split
  · exact ⟨h1', h2', h3', h4'⟩
  · dsimp only
    split
    next hcond =>
      rw [hcb]
      simp only [Bool.false_eq_true, if_false]
      dsimp only [EditTransaction.apply]
      refine ⟨?_, h2', ?_, h4'⟩
      · intro p hp
        by_cases hpq : p = resolvePath wd fe.path
        · subst hpq
          rw [dictLookup_insert_self] at hp
          cases hp
        · rw [dictLookup_insert_ne _ _ _ _ hpq] at hp
          rw [fsWrite_ne _ _ _ _ hpq]
          exact h1' p hp
      · intro p hp
        by_cases hpq : p = resolvePath wd fe.path
        · subst hpq
          rw [ho, dictLookup_insert_self]
          rfl
        · rw [dictLookup_insert_ne _ _ _ _ hpq] at hp
          exact h3' p hp
    next => exact ⟨h1', h2', h3', h4'⟩

/-- With `fail_fast` on and all previously accumulated results successful, a
failing file among the remaining ones forces the `rolled_back` state. -/
theorem run_files_state_rolled_back (env : Env) (args : MultiEditArgs)
    (cfg : MultiEditConfig) (wd : String) (te : Nat) (hff : args.fail_fast = true) :
    ∀ (files : List FileEdit) (acc : RunAcc),
      acc.results.all (fun r => r.success) = true →
      (MultiEdit.run_files env args cfg wd te files acc).1.results.any
        (fun r => !r.success) = true →
      (MultiEdit.run_files env args cfg wd te files acc).1.state = "rolled_back" := by
  intro files
  induction files with
  | nil =>
    intro acc hall hany
    rw [MultiEdit.run_files] at hany
    dsimp only at hany
    exfalso
    rw [List.any_eq_true] at hany
    obtain ⟨r, hr, hrs⟩ := hany
    rw [List.all_eq_true] at hall
    have := hall r hr
    rw [this] at hrs
    cases hrs
  | cons fe rest ih =>
    intro acc hall hany
    rw [MultiEdit.run_files] at hany ⊢
    dsimp only at hany ⊢
    revert hany
    split
    · intro _
      rfl
    next hnot =>
      intro hany
      have hfs : (MultiEdit.process_file env cfg args fe acc.tr acc.fs wd).1.success = true := by
        rw [hff] at hnot
        cases hs : (MultiEdit.process_file env cfg args fe acc.tr acc.fs wd).1.success with
        | true => rfl
        | false => exact absurd (by rw [hs]; rfl) hnot
      refine ih _ ?_ hany
      rw [List.all_append, hall, List.all_cons]
      simp [hfs]

/-- With `fail_fast` on, no backups, distinct resolved paths and the
transaction invariants, a run that ends `rolled_back` leaves the filesystem
exactly at `init`. -/
theorem run_files_rollback_restores (env : Env) (args : MultiEditArgs)
    (cfg : MultiEditConfig) (wd : String) (te : Nat) (init : FS)
    (hcb : args.create_backup = false) :
    ∀ (files : List FileEdit) (acc : RunAcc) (readPaths : List String),
      (∀ p, dictLookup acc.tr.modified_contents p = none → acc.fs p = init p) →
      (∀ p c, dictLookup acc.tr.original_contents p = some c → init p = some c) →
      (∀ p, (dictLookup acc.tr.modified_contents p).isSome = true →
        (dictLookup acc.tr.original_contents p).isSome = true) →
      (∀ p, (dictLookup acc.tr.original_contents p).isSome = true → p ∈ readPaths) →
      (readPaths ++ files.map (fun f => resolvePath wd f.path)).Nodup →
      (MultiEdit.run_files env args cfg wd te files acc).1.state = "rolled_back" →
      (MultiEdit.run_files env args cfg wd te files acc).2 = init := by
  intro files
  induction files with
  | nil =>
    intro acc readPaths _ _ _ _ _ hstate
    rw [MultiEdit.run_files] at hstate
    dsimp only at hstate
    exfalso
    revert hstate
    split
    · intro h; exact absurd h (by decide)
    split
    · intro h; exact absurd h (by decide)
    split
    · intro h; exact absurd h (by decide)
    · intro h; exact absurd h (by decide)
  | cons fe rest ih =>
    intro acc readPaths h1 h2 h3 h4 hnd hstate
    have hq : resolvePath wd fe.path ∉ readPaths := by
      rw [List.map_cons] at hnd
      intro hmem
      rcases List.nodup_append.1 hnd with ⟨_, _, hdisj⟩
      exact hdisj hmem (List.mem_cons_self _ _)
    obtain ⟨g1, g2, g3, g4⟩ :=
      process_file_txn_inv env cfg args fe acc.tr acc.fs wd init readPaths hcb h1 h2 h3 h4 hq
    rw [MultiEdit.run_files] at hstate ⊢
    dsimp only at hstate ⊢
    revert hstate
    split
    · intro _
      exact rollback_all_restores init _ _ g1 g2 g3
    · intro hstate
      refine ih _ (readPaths ++ [resolvePath wd fe.path]) g1 g2 g3 g4 ?_ hstate
      rw [List.map_cons] at hnd
      rw [List.append_assoc]
      simpa using hnd

/-- C1 (amended): for every run with `fail_fast` set where some file's
`FileEditResult` has `success = false`, the orchestrator rolls back every
modification made so far — rewriting each modified file with the
transaction's recorded (most recently read) original content — and
terminates with state `rolled_back`; when additionally no two `FileEdit`s
resolve to the same path and `create_backup` is off, this restores every
touched file to its first-read content and the filesystem is left unchanged. -/
theorem fail_fast_rolls_back (env : Env) (cfg : MultiEditConfig) (args : MultiEditArgs)
    (fs : FS) (hff : args.fail_fast = true)
    (hfail : (MultiEdit.run env cfg args fs).1.results.any (fun r => !r.success) = true) :
    (MultiEdit.run env cfg args fs).1.state = "rolled_back" ∧
    ((args.create_backup = false ∧
        (args.files.map (fun f => resolvePath cfg.workdir f.path)).Nodup) →
      (MultiEdit.run env cfg args fs).2 = fs) := by
  by_cases hsafe : (SafetyChecker.check_all fs cfg.workdir).1 = true
  · have hrun : MultiEdit.run env cfg args fs =
        MultiEdit.run_files env args cfg cfg.workdir
          ((args.files.map (fun f => f.edits.length)).sum) args.files
          { tr := { workdir := cfg.workdir }, fs := fs } := by
      rw [MultiEdit.run]
      dsimp only
      rw [hsafe]
      rfl
    rw [hrun] at hfail ⊢
    have hstate := run_files_state_rolled_back env args cfg cfg.workdir
      ((args.files.map (fun f => f.edits.length)).sum) hff args.files
      { tr := { workdir := cfg.workdir }, fs := fs } rfl hfail
    refine ⟨hstate, ?_⟩
    rintro ⟨hcb, hnd⟩
    refine run_files_rollback_restores env args cfg cfg.workdir
      ((args.files.map (fun f => f.edits.length)).sum) fs hcb args.files
      { tr := { workdir := cfg.workdir }, fs := fs } [] ?_ ?_ ?_ ?_ ?_ hstate
    · intro p _
      rfl
    · intro p c h
      rw [dictLookup] at h
      cases h
    · intro p h
      simp [dictLookup] at h
    · intro p h
      simp [dictLookup] at h
    · simpa using hnd
  · have hf : (SafetyChecker.check_all fs cfg.workdir).1 = false := by
      cases hc : (SafetyChecker.check_all fs cfg.workdir).1 with
      | true => exact absurd hc hsafe
      | false => rfl
    have hrun : MultiEdit.run env cfg args fs =
        ({ success := false, state := "failed",
           summary := "Safety check failed: " ++
             String.intercalate "; " (SafetyChecker.check_all fs cfg.workdir).2 }, fs) := by
      rw [MultiEdit.run]
      dsimp only
      rw [hf]
      rfl
    rw [hrun] at hfail
    simp at hfail

/-- Witness for the amended C1: a fail-fast run over a single missing file
rolls back and leaves the (untouched) filesystem unchanged. -/
theorem fail_fast_rolls_back_witness :
    (MultiEditArgs.fail_fast
      { files := [{ path := "/missing", edits := [] }], dry_run := false,
        check_only := false, create_backup := false, fail_fast := true } = true) ∧
    (MultiEdit.run defEnv { workdir := "/w" }
      { files := [{ path := "/missing", edits := [] }], dry_run := false,
        check_only := false, create_backup := false, fail_fast := true }
      (fun _ => none)).1.results.any (fun r => !r.success) = true ∧
    (MultiEdit.run defEnv { workdir := "/w" }
      { files := [{ path := "/missing", edits := [] }], dry_run := false,
        check_only := false, create_backup := false, fail_fast := true }
      (fun _ => none)).1.state = "rolled_back" ∧
    (MultiEdit.run defEnv { workdir := "/w" }
      { files := [{ path := "/missing", edits := [] }], dry_run := false,
        check_only := false, create_backup := false, fail_fast := true }
      (fun _ => none)).2 = (fun _ => none) := by
  have h := fail_fast_rolls_back defEnv { workdir := "/w" }
    { files := [{ path := "/missing", edits := [] }], dry_run := false,
      check_only := false, create_backup := false, fail_fast := true }
    (fun _ => none) rfl (by decide)
  exact ⟨rfl, by decide, h.1, h.2 ⟨rfl, by decide⟩⟩

/-- C1 counterexample inputs: the same path `/a` appears in two `FileEdit`s;
the first edit succeeds and is applied, the second file's edit fails. -/
def cxFS : FS := fun p => if p = "/a" then some ['x'] else none

def cxCfg : MultiEditConfig := { workdir := "/w" }

def cxArgs : MultiEditArgs :=
  { files := [{ path := "/a", edits := [{ search := ['x'], replace := ['y'] }] },
              { path := "/a", edits := [{ search := ['z', 'z', 'z'], replace := ['w'] }] }],
    dry_run := false, check_only := false, create_backup := true, fail_fast := true }

/-- Counterexample to C1 as stated: this fail-fast run reports `rolled_back`,
but the filesystem is NOT left unchanged and `/a` is NOT restored to its
first-read content — the second read of `/a` overwrote the recorded original
with the already-modified content `"y"`, so rollback rewrites `"y"`, and the
`.bak` backup file created for the first write survives. -/
theorem fail_fast_rollback_counterexample :
    cxArgs.fail_fast = true ∧
    (MultiEdit.run defEnv cxCfg cxArgs cxFS).1.results.any (fun r => !r.success) = true ∧
    (MultiEdit.run defEnv cxCfg cxArgs cxFS).1.state = "rolled_back" ∧
    cxFS "/a" = some ['x'] ∧
    (MultiEdit.run defEnv cxCfg cxArgs cxFS).2 "/a" = some ['y'] ∧
    cxFS "/a.bak" = none ∧
    (MultiEdit.run defEnv cxCfg cxArgs cxFS).2 "/a.bak" = some ['x'] := by
  refine ⟨rfl, by decide, by decide, rfl, by decide, rfl, by decide⟩
